import Mathlib

/-!
Shallow embedding of the iterative DNS resolver (src/dnsresolver.py) and
proofs about its delegation-walk state machine.

Modelling conventions:
* The external DNS codec/transport (`dns.query.udp` plus `dns.message`)
  and the system resolver (`dns.resolver.resolve`) are collaborators; they
  are modelled as oracle functions passed in as parameters.  The transport
  oracle is indexed by the number of transport calls already made, so a
  run can receive an arbitrary sequence of responses.
* Parsed responses keep only what the resolver inspects: the response
  code (an integer; 0 = NOERROR, 3 = NXDOMAIN), and the answer, authority
  and additional sections as lists of record sets.
* Python list truthiness (`if response.answer:`) becomes emptiness tests;
  `dict` assignment becomes a lookup function updated with overwrite
  semantics; `str.rstrip('.')` becomes `rstripDot`.
* `print` calls are dropped; the observable behaviour kept is the outcome,
  the final state and the trace of transport calls (server, domain pairs).
-/

/-- Record types the resolver distinguishes: it compares `rrset.rdtype`
only against NS and A; every other type (e.g. CNAME) falls through. -/
inductive RdType where
  | NS
  | A
  | CNAME
  | other
deriving DecidableEq, Repr

/-- One record set of a response section (dnspython `rrset`): its record
type, its owner name (`rrset.name.to_text()`), and the textual data of
each record in it (NS targets `rr.target.to_text()` or A addresses
`rr.address`, depending on the type). -/
structure RRset where
  rdtype : RdType
  name : String
  rrs : List String
deriving DecidableEq, Repr

/-- Decoded DNS reply as inspected by the resolver: response code plus the
three sections it reads. -/
structure ParsedResponse where
  rcode : Nat
  answer : List RRset
  authority : List RRset
  additional : List RRset
deriving DecidableEq, Repr

/-- Value of `dns.rcode.NOERROR`. -/
def NOERROR : Nat := 0

/-- Value of `dns.rcode.NXDOMAIN`. -/
def NXDOMAIN : Nat := 3

/-- Python `s.rstrip('.')`: remove every trailing dot. -/
def rstripDot (s : String) : String :=
  String.mk ((s.data.reverse.dropWhile (fun c => c == '.')).reverse)

/-- Root DNS servers used to start the iterative resolution process
(the `ROOT_SERVERS` dict; pairs of address and display name, in insertion
order). -/
def ROOT_SERVERS : List (String × String) :=
  [("198.41.0.4", "Root (a.root-servers.net)"),
   ("199.9.14.201", "Root (b.root-servers.net)"),
   ("192.33.4.12", "Root (c.root-servers.net)"),
   ("199.7.91.13", "Root (d.root-servers.net)"),
   ("192.203.230.10", "Root (e.root-servers.net)")]

/-- Embedding of `send_dns_query` (dnsresolver.py lines 22-31): the
external codec/transport call is the oracle `udp`, which either yields a
parsed response or throws (modelled as `Except.error` with the message).
The `try/except` collapses every error to `None`. -/
def send_dns_query (udp : String → String → Except String ParsedResponse)
    (server domain : String) : Option ParsedResponse :=
  match udp server domain with
  | Except.ok r => some r
  | Except.error _ => none

/-- Embedding of `resolve_ns_name` (dnsresolver.py lines 33-45): the
system resolver call is the oracle `sysResolve`; on success the address
list is returned, any exception collapses to the empty list. -/
def resolve_ns_name (sysResolve : String → Except String (List String))
    (ns_name : String) : List String :=
  match sysResolve ns_name with
  | Except.ok ips => ips
  | Except.error _ => []

/-- First loop of `extract_next_nameservers` (lines 56-62): collect the
normalized NS target hostnames from the authority section, in encounter
order. -/
def ns_names_of (response : ParsedResponse) : List String :=
  response.authority.foldl
    (fun acc rrset =>
      if rrset.rdtype = RdType.NS then acc ++ rrset.rrs.map rstripDot else acc)
    []

/-- Second loop of `extract_next_nameservers` (lines 64-71): the
`additional_a` dict built from the A record sets of a section, as a lookup
function.  Python dict assignment `additional_a[name] = a_records`
overwrites, so a later record set for the same name shadows an earlier
one. -/
def build_additional_a (additional : List RRset) : String → Option (List String) :=
  additional.foldl
    (fun m rrset =>
      if rrset.rdtype = RdType.A then
        fun name => if name = rstripDot rrset.name then some rrset.rrs else m name
      else m)
    (fun _ => none)

/-- The `additional_a` dict of a response. -/
def additional_a_of (response : ParsedResponse) : String → Option (List String) :=
  build_additional_a response.additional

/-- Embedding of `extract_next_nameservers` (lines 47-88) with the
fallback system resolution as the oracle `fallback` (`resolve_ns_name` in
the source).  Third loop (lines 73-86): for each NS hostname use its glue
addresses when present, otherwise the fallback result when non-empty. -/
def extract_next_nameservers (fallback : String → List String)
    (response : ParsedResponse) : List String :=
  (ns_names_of response).foldl
    (fun ns_ips ns_name =>
      let normalized_ns := rstripDot ns_name
      match additional_a_of response normalized_ns with
      | some ips => ns_ips ++ ips
      | none =>
        let fallback_ips := fallback ns_name
        if fallback_ips = [] then ns_ips else ns_ips ++ fallback_ips)
    []

/-- Instrumented copy of `extract_next_nameservers` that additionally
counts how many times the fallback resolution path is invoked (the
`else` branch at line 79, entered once per NS hostname missing from
`additional_a`). -/
def extract_next_nameservers_count (fallback : String → List String)
    (response : ParsedResponse) : List String × Nat :=
  (ns_names_of response).foldl
    (fun st ns_name =>
      let normalized_ns := rstripDot ns_name
      match additional_a_of response normalized_ns with
      | some ips => (st.1 ++ ips, st.2)
      | none =>
        let fallback_ips := fallback ns_name
        (if fallback_ips = [] then st.1 else st.1 ++ fallback_ips, st.2 + 1))
    ([], 0)

/-- Stage labels of the delegation walk. -/
inductive Stage where
  | ROOT
  | TLD
  | AUTH
deriving DecidableEq, Repr

/-- Stage update at a delegation (lines 136-141): ROOT becomes TLD, TLD
becomes AUTH, any later stage keeps the AUTH label. -/
def next_stage : Stage → Stage
  | Stage.ROOT => Stage.TLD
  | Stage.TLD => Stage.AUTH
  | Stage.AUTH => Stage.AUTH

/-- Numeric height of a stage label, for monotonicity statements. -/
def Stage.rank : Stage → Nat
  | Stage.ROOT => 0
  | Stage.TLD => 1
  | Stage.AUTH => 2

/-- Terminal outcome of a resolution run: the three return paths of
`iterative_dns_lookup` — SUCCESS with the printed answer records,
NXDOMAIN, and the two failure prints (no further nameservers at line
133, queue exhausted at line 143). -/
inductive Outcome where
  | success (records : List String)
  | nonExistent
  | failure
deriving DecidableEq, Repr

/-- Records printed on success (lines 124-127): every record of every
record set of the answer section, in order. -/
def answer_records (response : ParsedResponse) : List String :=
  response.answer.foldl (fun acc rrset => acc ++ rrset.rrs) []

/-- Engine state of `iterative_dns_lookup`: the candidate queue
(`next_ns_list`), the stage label, and the trace of transport calls
issued so far as (server, domain) pairs.  The trace length is the number
of `send_dns_query` calls made. -/
structure EState where
  queue : List String
  stage : Stage
  trace : List (String × String)
deriving DecidableEq, Repr

/-- Result of running the loop body once: either the loop continues with
a new state, or the function returns with an outcome (the state records
the final trace). -/
inductive StepRes where
  | next (s : EState)
  | done (o : Outcome) (s : EState)
deriving DecidableEq, Repr

/-- One iteration of the `while next_ns_list` loop of
`iterative_dns_lookup` (lines 101-141), plus the loop exit at line 143
when the queue is empty.  `T` is the transport oracle (indexed by the
number of calls already made, then server and domain, returning what
`send_dns_query` returns), `F` the fallback hostname resolution used by
`extract_next_nameservers`. -/
def engineStep (T : Nat → String → String → Option ParsedResponse)
    (F : String → List String) (domain : String) (s : EState) : StepRes :=
  match s.queue with
  | [] => StepRes.done Outcome.failure s
  | ns_ip :: rest =>
    let tr := s.trace ++ [(ns_ip, domain)]
    match T s.trace.length ns_ip domain with
    | none => StepRes.next ⟨rest, s.stage, tr⟩
    | some response =>
      if response.rcode ≠ NOERROR then
        if response.rcode = NXDOMAIN then
          StepRes.done Outcome.nonExistent ⟨s.queue, s.stage, tr⟩
        else
          StepRes.next ⟨rest, s.stage, tr⟩
      else if response.answer ≠ [] then
        StepRes.done (Outcome.success (answer_records response)) ⟨s.queue, s.stage, tr⟩
      else
        let next_ns_list := extract_next_nameservers F response
        if next_ns_list = [] then
          StepRes.done Outcome.failure ⟨next_ns_list, s.stage, tr⟩
        else
          StepRes.next ⟨next_ns_list, next_stage s.stage, tr⟩

/-- Fuel-indexed iteration of the loop; with fuel `0` the current state
is returned unfinished.  A `done` result is final regardless of the fuel
remaining. -/
def engineIter (T : Nat → String → String → Option ParsedResponse)
    (F : String → List String) (domain : String) : Nat → EState → StepRes
  | 0, s => StepRes.next s
  | n + 1, s =>
    match engineStep T F domain s with
    | StepRes.next s2 => engineIter T F domain n s2
    | StepRes.done o s2 => StepRes.done o s2

/-- Initial engine state of `iterative_dns_lookup` (lines 98-99): queue
seeded with `list(ROOT_SERVERS.keys())`, stage ROOT, no calls issued. -/
def initial_state : EState :=
  ⟨ROOT_SERVERS.map Prod.fst, Stage.ROOT, []⟩

/-- Embedding of `iterative_dns_lookup` (lines 90-143): run the engine
from the initial state for the given amount of fuel. -/
def iterative_dns_lookup (T : Nat → String → String → Option ParsedResponse)
    (F : String → List String) (domain : String) (fuel : Nat) : StepRes :=
  engineIter T F domain fuel initial_state

/-- Transport-call trace of a loop result. -/
def traceOf : StepRes → List (String × String)
  | StepRes.next s => s.trace
  | StepRes.done _ s => s.trace

/-- Stage label of a loop result. -/
def stageOf : StepRes → Stage
  | StepRes.next s => s.stage
  | StepRes.done _ s => s.stage

/-- The run terminates: some finite fuel makes it return an outcome. -/
def terminatesD (T : Nat → String → String → Option ParsedResponse)
    (F : String → List String) (domain : String) : Prop :=
  ∃ fuel o s, iterative_dns_lookup T F domain fuel = StepRes.done o s

/-- Formalisation of the spec's GlueResolver sentence, for the refinement
proof of the extraction loop: for one NS hostname, its glue addresses
when the glue map has an entry for it, otherwise whatever the fallback
resolution returns. -/
def spec_next_hop_addrs (fallback : String → List String)
    (response : ParsedResponse) (ns_name : String) : List String :=
  match additional_a_of response (rstripDot ns_name) with
  | some ips => ips
  | none => fallback ns_name

/-- One transport call's result counts as failing for the rotation
policy when the call produced no reply, or a reply whose response code
is neither NOERROR nor NXDOMAIN. -/
def failing_response (o : Option ParsedResponse) : Prop :=
  o = none ∨ ∃ r, o = some r ∧ r.rcode ≠ NOERROR ∧ r.rcode ≠ NXDOMAIN

/-- Fallback oracle that never resolves anything. -/
def emptyFallback : String → List String := fun _ => []

/-- Transport oracle whose every call fails (send_dns_query returned
None). -/
def noneTransport : Nat → String → String → Option ParsedResponse :=
  fun _ _ _ => none

/-- Reply carrying only the NXDOMAIN response code. -/
def nxdomainResponse : ParsedResponse := ⟨3, [], [], []⟩

/-- Transport oracle whose every call reports NXDOMAIN. -/
def nxdomainTransport : Nat → String → String → Option ParsedResponse :=
  fun _ _ _ => some nxdomainResponse

/-- Delegation reply: NOERROR, empty answer, one NS record with a glue
address in the additional section. -/
def delegLoopResponse : ParsedResponse :=
  ⟨0, [],
   [⟨RdType.NS, "com.", ["ns.loop.example."]⟩],
   [⟨RdType.A, "ns.loop.example.", ["1.2.3.4"]⟩]⟩

/-- Transport oracle whose every call returns the same delegation reply:
the walk then visits delegations forever. -/
def delegLoopTransport : Nat → String → String → Option ParsedResponse :=
  fun _ _ _ => some delegLoopResponse

/-- Delegation reply whose only NS hostname has no glue, so with an
empty fallback the extraction yields no next hop. -/
def noGlueDelegResponse : ParsedResponse :=
  ⟨0, [], [⟨RdType.NS, "com.", ["ns.nowhere.example."]⟩], []⟩

/-- Reply answering with a CNAME record set: a non-address record in the
answer section. -/
def cnameSuccessResponse : ParsedResponse :=
  ⟨0, [⟨RdType.CNAME, "example.com.", ["alias.example.net."]⟩], [], []⟩

/-- Transport oracle whose every call returns the CNAME answer. -/
def cnameSuccessTransport : Nat → String → String → Option ParsedResponse :=
  fun _ _ _ => some cnameSuccessResponse

/-- Delegation reply in which every NS hostname has glue in the
additional section. -/
def fullGlueResponse : ParsedResponse :=
  ⟨0, [],
   [⟨RdType.NS, "com.", ["a.gtld.example.", "b.gtld.example."]⟩],
   [⟨RdType.A, "a.gtld.example.", ["10.0.0.1"]⟩,
    ⟨RdType.A, "b.gtld.example.", ["10.0.0.2", "10.0.0.3"]⟩]⟩

/-- Additional section holding two A record sets for the same hostname. -/
def dupAdditional : List RRset :=
  [⟨RdType.A, "ns1.example.", ["1.1.1.1"]⟩,
   ⟨RdType.A, "ns1.example.", ["2.2.2.2"]⟩]

/-- Transport oracle whose every call returns the glue-less delegation. -/
def noGlueDelegTransport : Nat → String → String → Option ParsedResponse :=
  fun _ _ _ => some noGlueDelegResponse

/-! Helper lemmas about the engine step. -/

lemma engineStep_nil {T F d} {s : EState} (hq : s.queue = []) :
    engineStep T F d s = StepRes.done Outcome.failure s := by
  simp [engineStep, hq]

lemma engineStep_none {T F d} {s : EState} {ns rest} (hq : s.queue = ns :: rest)
    (ht : T s.trace.length ns d = none) :
    engineStep T F d s = StepRes.next ⟨rest, s.stage, s.trace ++ [(ns, d)]⟩ := by
  simp [engineStep, hq, ht]

lemma engineStep_nxdomain {T F d} {s : EState} {ns rest r} (hq : s.queue = ns :: rest)
    (ht : T s.trace.length ns d = some r) (h3 : r.rcode = NXDOMAIN) :
    engineStep T F d s = StepRes.done Outcome.nonExistent ⟨s.queue, s.stage, s.trace ++ [(ns, d)]⟩ := by
  simp [engineStep, hq, ht, h3, NXDOMAIN, NOERROR]

lemma engineStep_protocol_error {T F d} {s : EState} {ns rest r} (hq : s.queue = ns :: rest)
    (ht : T s.trace.length ns d = some r) (h0 : r.rcode ≠ NOERROR) (h3 : r.rcode ≠ NXDOMAIN) :
    engineStep T F d s = StepRes.next ⟨rest, s.stage, s.trace ++ [(ns, d)]⟩ := by
  simp only [NOERROR] at h0
  simp only [NXDOMAIN] at h3
  simp [engineStep, hq, ht, NOERROR, NXDOMAIN, h0, h3]

lemma engineStep_success {T F d} {s : EState} {ns rest r} (hq : s.queue = ns :: rest)
    (ht : T s.trace.length ns d = some r) (h0 : r.rcode = NOERROR) (ha : r.answer ≠ []) :
    engineStep T F d s =
      StepRes.done (Outcome.success (answer_records r)) ⟨s.queue, s.stage, s.trace ++ [(ns, d)]⟩ := by
  simp [engineStep, hq, ht, h0, ha, NOERROR]

lemma engineStep_deleg_empty {T F d} {s : EState} {ns rest r} (hq : s.queue = ns :: rest)
    (ht : T s.trace.length ns d = some r) (h0 : r.rcode = NOERROR) (ha : r.answer = [])
    (he : extract_next_nameservers F r = []) :
    engineStep T F d s = StepRes.done Outcome.failure ⟨[], s.stage, s.trace ++ [(ns, d)]⟩ := by
  simp [engineStep, hq, ht, h0, ha, he, NOERROR]

lemma engineStep_deleg {T F d} {s : EState} {ns rest r} (hq : s.queue = ns :: rest)
    (ht : T s.trace.length ns d = some r) (h0 : r.rcode = NOERROR) (ha : r.answer = [])
    (he : extract_next_nameservers F r ≠ []) :
    engineStep T F d s =
      StepRes.next ⟨extract_next_nameservers F r, next_stage s.stage, s.trace ++ [(ns, d)]⟩ := by
  simp [engineStep, hq, ht, h0, ha, he, NOERROR]

lemma engineIter_zero {T F d} (s : EState) :
    engineIter T F d 0 s = StepRes.next s := rfl

lemma engineIter_succ {T F d} (n : Nat) (s : EState) :
    engineIter T F d (n + 1) s =
      match engineStep T F d s with
      | StepRes.next s2 => engineIter T F d n s2
      | StepRes.done o s2 => StepRes.done o s2 := rfl

lemma engineIter_add {T F d} (a b : Nat) (s : EState) :
    engineIter T F d (a + b) s =
      match engineIter T F d a s with
      | StepRes.next s2 => engineIter T F d b s2
      | StepRes.done o s2 => StepRes.done o s2 := by
  induction a generalizing s with
  | zero => simp [engineIter_zero, Nat.zero_add]
  | succ n ih =>
    rw [Nat.succ_add, engineIter_succ, engineIter_succ]
    cases hst : engineStep T F d s with
    | next s2 => exact ih s2
    | done o s2 => rfl

lemma rank_le_next_stage (st : Stage) : st.rank ≤ (next_stage st).rank := by
  cases st <;> decide

/-- Any continuing step appends exactly one transport call to the trace
and never lowers the stage rank. -/
lemma engineStep_next_shape {T F d} {s s2 : EState}
    (h : engineStep T F d s = StepRes.next s2) :
    (∃ ns, s2.trace = s.trace ++ [(ns, d)]) ∧ s.stage.rank ≤ s2.stage.rank := by
  cases hq : s.queue with
  | nil => rw [engineStep_nil hq] at h; cases h
  | cons ns rest =>
    cases ht : T s.trace.length ns d with
    | none =>
      rw [engineStep_none hq ht] at h
      cases h
      exact ⟨⟨ns, rfl⟩, le_refl _⟩
    | some r =>
      by_cases h0 : r.rcode = NOERROR
      · by_cases ha : r.answer = []
        · by_cases he : extract_next_nameservers F r = []
          · rw [engineStep_deleg_empty hq ht h0 ha he] at h; cases h
          · rw [engineStep_deleg hq ht h0 ha he] at h
            cases h
            exact ⟨⟨ns, rfl⟩, rank_le_next_stage _⟩
        · rw [engineStep_success hq ht h0 ha] at h; cases h
      · by_cases h3 : r.rcode = NXDOMAIN
        · rw [engineStep_nxdomain hq ht h3] at h; cases h
        · rw [engineStep_protocol_error hq ht h0 h3] at h
          cases h
          exact ⟨⟨ns, rfl⟩, le_refl _⟩

/-- Any terminating step keeps the stage label and appends at most one
transport call to the trace. -/
lemma engineStep_done_shape {T F d} {s s2 : EState} {o : Outcome}
    (h : engineStep T F d s = StepRes.done o s2) :
    (s2.trace = s.trace ∨ ∃ ns, s2.trace = s.trace ++ [(ns, d)]) ∧ s2.stage = s.stage := by
  cases hq : s.queue with
  | nil =>
    rw [engineStep_nil hq] at h
    cases h
    exact ⟨Or.inl rfl, rfl⟩
  | cons ns rest =>
    cases ht : T s.trace.length ns d with
    | none => rw [engineStep_none hq ht] at h; cases h
    | some r =>
      by_cases h0 : r.rcode = NOERROR
      · by_cases ha : r.answer = []
        · by_cases he : extract_next_nameservers F r = []
          · rw [engineStep_deleg_empty hq ht h0 ha he] at h
            cases h
            exact ⟨Or.inr ⟨ns, rfl⟩, rfl⟩
          · rw [engineStep_deleg hq ht h0 ha he] at h; cases h
        · rw [engineStep_success hq ht h0 ha] at h
          cases h
          exact ⟨Or.inr ⟨ns, rfl⟩, rfl⟩
      · by_cases h3 : r.rcode = NXDOMAIN
        · rw [engineStep_nxdomain hq ht h3] at h
          cases h
          exact ⟨Or.inr ⟨ns, rfl⟩, rfl⟩
        · rw [engineStep_protocol_error hq ht h0 h3] at h; cases h

/-- A run that is still going after `n` iterations has issued exactly
one transport call per iteration. -/
lemma engineIter_next_trace_len {T F d} :
    ∀ n (s s2 : EState), engineIter T F d n s = StepRes.next s2 →
      s2.trace.length = s.trace.length + n := by
  intro n
  induction n with
  | zero =>
    intro s s2 h
    rw [engineIter_zero] at h
    cases h
    rfl
  | succ m ih =>
    intro s s2 h
    rw [engineIter_succ] at h
    cases hst : engineStep T F d s with
    | next s1 =>
      rw [hst] at h
      obtain ⟨⟨ns, htr⟩, _⟩ := engineStep_next_shape hst
      have := ih s1 s2 h
      rw [this, htr]
      simp
      omega
    | done o s1 => rw [hst] at h; cases h

/-! Helper lemmas about the extraction loop. -/

lemma foldl_append_flatMap {α β : Type} (g : α → List β) :
    ∀ (l : List α) (acc : List β),
      l.foldl (fun a x => a ++ g x) acc = acc ++ l.flatMap g := by
  intro l
  induction l with
  | nil => intro acc; simp
  | cons x xs ih => intro acc; simp [ih]

lemma extract_eq_flatMap (F : String → List String) (resp : ParsedResponse) :
    extract_next_nameservers F resp =
      (ns_names_of resp).flatMap (spec_next_hop_addrs F resp) := by
  have hbody : (fun (ns_ips : List String) (ns_name : String) =>
      let normalized_ns := rstripDot ns_name
      match additional_a_of resp normalized_ns with
      | some ips => ns_ips ++ ips
      | none =>
        let fallback_ips := F ns_name
        if fallback_ips = [] then ns_ips else ns_ips ++ fallback_ips)
      = fun a n => a ++ spec_next_hop_addrs F resp n := by
    funext a n
    simp only [spec_next_hop_addrs]
    cases h : additional_a_of resp (rstripDot n) with
    | some ips => simp [h]
    | none =>
      by_cases hf : F n = [] <;> simp [h, hf]
  unfold extract_next_nameservers
  rw [hbody, foldl_append_flatMap]
  simp

lemma count_loop (F : String → List String) (resp : ParsedResponse) :
    ∀ (l : List String) (acc : List String) (c : Nat),
      l.foldl (fun st ns_name =>
        let normalized_ns := rstripDot ns_name
        match additional_a_of resp normalized_ns with
        | some ips => (st.1 ++ ips, st.2)
        | none =>
          let fallback_ips := F ns_name
          (if fallback_ips = [] then st.1 else st.1 ++ fallback_ips, st.2 + 1)) (acc, c)
      = (acc ++ l.flatMap (spec_next_hop_addrs F resp),
         c + (l.filter (fun n => (additional_a_of resp (rstripDot n)).isNone)).length) := by
  intro l
  induction l with
  | nil => intro acc c; simp
  | cons n ns ih =>
    intro acc c
    simp only [List.foldl_cons]
    cases h : additional_a_of resp (rstripDot n) with
    | some ips =>
      rw [ih]
      simp [spec_next_hop_addrs, h, List.filter_cons]
    | none =>
      by_cases hf : F n = []
      · rw [if_pos hf, ih]
        simp [spec_next_hop_addrs, h, hf, List.filter_cons]
        omega
      · rw [if_neg hf, ih]
        simp [spec_next_hop_addrs, h, hf, List.filter_cons]
        omega

lemma extract_count_eq (F : String → List String) (resp : ParsedResponse) :
    extract_next_nameservers_count F resp =
      (extract_next_nameservers F resp,
       ((ns_names_of resp).filter
         (fun n => (additional_a_of resp (rstripDot n)).isNone)).length) := by
  unfold extract_next_nameservers_count
  rw [count_loop, extract_eq_flatMap]
  simp

/-! Helper lemmas about whole runs. -/

lemma engineIter_stage_rank {T F d} :
    ∀ n (s : EState), s.stage.rank ≤ (stageOf (engineIter T F d n s)).rank := by
  intro n
  induction n with
  | zero => intro s; simp [engineIter_zero, stageOf]
  | succ m ih =>
    intro s
    rw [engineIter_succ]
    cases hst : engineStep T F d s with
    | next s1 => exact le_trans (engineStep_next_shape hst).2 (ih s1)
    | done o s1 =>
      have h2 := (engineStep_done_shape hst).2
      simp [stageOf, h2]

lemma trace_domain_invariant {T F d} :
    ∀ n (s : EState), (∀ p ∈ s.trace, p.2 = d) →
      ∀ p ∈ traceOf (engineIter T F d n s), p.2 = d := by
  intro n
  induction n with
  | zero =>
    intro s hs p hp
    rw [engineIter_zero] at hp
    exact hs p hp
  | succ m ih =>
    intro s hs p hp
    rw [engineIter_succ] at hp
    cases hst : engineStep T F d s with
    | next s1 =>
      rw [hst] at hp
      refine ih s1 ?_ p hp
      obtain ⟨⟨ns, htr⟩, _⟩ := engineStep_next_shape hst
      intro q hq
      rw [htr] at hq
      rcases List.mem_append.mp hq with h1 | h2
      · exact hs q h1
      · simp at h2
        rw [h2]
    | done o s1 =>
      rw [hst] at hp
      simp only [traceOf] at hp
      obtain ⟨htr, _⟩ := engineStep_done_shape hst
      rcases htr with h1 | ⟨ns, h2⟩
      · rw [h1] at hp
        exact hs p hp
      · rw [h2] at hp
        rcases List.mem_append.mp hp with ha | hb
        · exact hs p ha
        · simp at hb
          rw [hb]

lemma delegLoop_never_done :
    ∀ n (s : EState), s.queue ≠ [] →
      ∃ s2, engineIter delegLoopTransport emptyFallback "example.com" n s = StepRes.next s2 ∧
        s2.queue ≠ [] := by
  have hex : extract_next_nameservers emptyFallback delegLoopResponse = ["1.2.3.4"] := by decide
  intro n
  induction n with
  | zero => intro s h; exact ⟨s, engineIter_zero s, h⟩
  | succ m ih =>
    intro s h
    cases hq : s.queue with
    | nil => exact absurd hq h
    | cons ns rest =>
      have ht : delegLoopTransport s.trace.length ns "example.com" = some delegLoopResponse := rfl
      have hne : extract_next_nameservers emptyFallback delegLoopResponse ≠ [] := by
        rw [hex]; simp
      have hst := engineStep_deleg (s := s) hq ht rfl rfl hne
      rw [engineIter_succ, hst]
      exact ih _ (by simp [hex])

lemma exhaust_all_failing {T F d} :
    ∀ (q : List String) (s : EState), s.queue = q →
      (∀ i (hi : i < q.length), failing_response (T (s.trace.length + i) (q.get ⟨i, hi⟩) d)) →
      engineIter T F d (q.length + 1) s =
        StepRes.done Outcome.failure ⟨[], s.stage, s.trace ++ q.map (fun ns => (ns, d))⟩ := by
  intro q
  induction q with
  | nil =>
    intro s hq _
    obtain ⟨qu, st, tr⟩ := s
    simp only at hq
    subst hq
    rw [engineIter_succ, engineStep_nil rfl]
    simp
  | cons ns rest ih =>
    intro s hq hf
    have hhead : failing_response (T s.trace.length ns d) := by
      have := hf 0 (by simp)
      simpa using this
    have hst : engineStep T F d s = StepRes.next ⟨rest, s.stage, s.trace ++ [(ns, d)]⟩ := by
      rcases hhead with hn | ⟨r, hr, h0, h3⟩
      · exact engineStep_none hq hn
      · exact engineStep_protocol_error hq hr h0 h3
    have hlen : (ns :: rest).length + 1 = (rest.length + 1) + 1 := by simp
    rw [hlen, engineIter_succ, hst]
    have hrec := ih ⟨rest, s.stage, s.trace ++ [(ns, d)]⟩ rfl ?_
    · show engineIter T F d (rest.length + 1) ⟨rest, s.stage, s.trace ++ [(ns, d)]⟩ =
        StepRes.done Outcome.failure
          ⟨[], s.stage, s.trace ++ (ns :: rest).map (fun ns => (ns, d))⟩
      rw [hrec]
      simp
    · intro i hi
      have h2 : (s.trace ++ [(ns, d)]).length + i = s.trace.length + (i + 1) := by
        simp
        omega
      rw [h2]
      have := hf (i + 1) (by simpa using Nat.succ_lt_succ hi)
      simpa using this

lemma terminates_of_no_deleg {T F d} :
    ∀ (q : List String) (s : EState), s.queue = q →
      (∀ k ns r, s.trace.length ≤ k → T k ns d = some r → r.rcode = NOERROR →
        r.answer = [] → extract_next_nameservers F r = []) →
      ∃ o s2, engineIter T F d (q.length + 1) s = StepRes.done o s2 := by
  intro q
  induction q with
  | nil =>
    intro s hq _
    exact ⟨Outcome.failure, s, by rw [engineIter_succ, engineStep_nil hq]⟩
  | cons ns rest ih =>
    intro s hq hnd
    have hlen : (ns :: rest).length + 1 = (rest.length + 1) + 1 := by simp
    have htrans : ∀ (s1 : EState), s1.trace = s.trace ++ [(ns, d)] →
        (∀ k ns2 r, s1.trace.length ≤ k → T k ns2 d = some r → r.rcode = NOERROR →
          r.answer = [] → extract_next_nameservers F r = []) := by
      intro s1 h1 k ns2 r hk
      refine hnd k ns2 r ?_
      rw [h1] at hk
      simp at hk
      omega
    cases ht : T s.trace.length ns d with
    | none =>
      have hst := engineStep_none (F := F) hq ht
      rw [hlen, engineIter_succ, hst]
      exact ih ⟨rest, s.stage, s.trace ++ [(ns, d)]⟩ rfl (htrans _ rfl)
    | some r =>
      by_cases h0 : r.rcode = NOERROR
      · by_cases ha : r.answer = []
        · have he := hnd s.trace.length ns r (le_refl _) ht h0 ha
          exact ⟨Outcome.failure, _, by rw [engineIter_succ, engineStep_deleg_empty hq ht h0 ha he]⟩
        · exact ⟨Outcome.success (answer_records r), _,
            by rw [engineIter_succ, engineStep_success hq ht h0 ha]⟩
      · by_cases h3 : r.rcode = NXDOMAIN
        · exact ⟨Outcome.nonExistent, _, by rw [engineIter_succ, engineStep_nxdomain hq ht h3]⟩
        · have hst := engineStep_protocol_error (F := F) hq ht h0 h3
          rw [hlen, engineIter_succ, hst]
          exact ih ⟨rest, s.stage, s.trace ++ [(ns, d)]⟩ rfl (htrans _ rfl)

lemma outcome_trichotomy (o : Outcome) :
    (∃ recs, o = Outcome.success recs) ∨ o = Outcome.nonExistent ∨ o = Outcome.failure := by
  cases o with
  | success recs => exact Or.inl ⟨recs, rfl⟩
  | nonExistent => exact Or.inr (Or.inl rfl)
  | failure => exact Or.inr (Or.inr rfl)

/-! Claim theorems. -/

/-- C1: whenever a queried server's response carries the NXDOMAIN
response code, the run terminates immediately with definitive
non-existence — the final trace extends the current one by exactly that
one query, no matter how many candidates remain in the queue and
whatever the response's other sections contain. -/
theorem claim1_nxdomain_terminal
    (T : Nat → String → String → Option ParsedResponse) (F : String → List String)
    (d : String) (fuel : Nat) (s : EState) (ns : String) (rest : List String)
    (r : ParsedResponse) (hfuel : 0 < fuel) (hq : s.queue = ns :: rest)
    (ht : T s.trace.length ns d = some r) (h3 : r.rcode = NXDOMAIN) :
    engineIter T F d fuel s =
      StepRes.done Outcome.nonExistent ⟨s.queue, s.stage, s.trace ++ [(ns, d)]⟩ := by
  obtain ⟨m, rfl⟩ : ∃ m, fuel = m + 1 := ⟨fuel - 1, by omega⟩
  rw [engineIter_succ, engineStep_nxdomain hq ht h3]

/-- Witness for C1: a mocked transport answering NXDOMAIN on the very
first root query ends the run after exactly one transport call, with
four candidates still queued. -/
theorem claim1_nxdomain_terminal_witness :
    iterative_dns_lookup nxdomainTransport emptyFallback "example.com" 7 =
      StepRes.done Outcome.nonExistent
        ⟨ROOT_SERVERS.map Prod.fst, Stage.ROOT, [("198.41.0.4", "example.com")]⟩ :=
  claim1_nxdomain_terminal nxdomainTransport emptyFallback "example.com" 7
    initial_state "198.41.0.4"
    ["199.9.14.201", "192.33.4.12", "199.7.91.13", "192.203.230.10"]
    nxdomainResponse (by decide) rfl rfl rfl

/-- C2 counterexample: the claim "every run terminates for every
sequence of responses" is false.  A transport that answers every query
with the same delegation (NOERROR, no answer, one NS record with glue)
keeps the queue non-empty forever, so no amount of fuel makes the run
reach an outcome: the walk has no delegation-depth guard. -/
theorem claim2_nontermination_counterexample :
    ¬ terminatesD delegLoopTransport emptyFallback "example.com" := by
  rintro ⟨fuel, o, st, h⟩
  have h2 : engineIter delegLoopTransport emptyFallback "example.com" fuel initial_state =
      StepRes.done o st := h
  obtain ⟨s2, hnext, _⟩ := delegLoop_never_done fuel initial_state (by decide)
  rw [hnext] at h2
  cases h2

/-- C2 amended: a run's outcome, when it terminates, is exactly one of
success-with-records, definitive non-existence, or failure; and the run
does terminate whenever, from some call index on, the transport never
produces a delegation response (NOERROR, empty answer) whose extraction
yields a non-empty next-hop list.  Unconditional termination fails (see
the counterexample): an unbounded chain of successful delegations makes
the loop run forever. -/
theorem claim2_termination_amended
    (T : Nat → String → String → Option ParsedResponse) (F : String → List String)
    (d : String) (N : Nat)
    (hnd : ∀ k ns r, N ≤ k → T k ns d = some r → r.rcode = NOERROR → r.answer = [] →
      extract_next_nameservers F r = []) :
    ∃ fuel o s, iterative_dns_lookup T F d fuel = StepRes.done o s ∧
      ((∃ recs, o = Outcome.success recs) ∨ o = Outcome.nonExistent ∨ o = Outcome.failure) := by
  cases hN : engineIter T F d N initial_state with
  | done o s2 => exact ⟨N, o, s2, hN, outcome_trichotomy o⟩
  | next s2 =>
    have hlen : s2.trace.length = N := by
      have := engineIter_next_trace_len N initial_state s2 hN
      simpa [initial_state] using this
    have hnd2 : ∀ k ns r, s2.trace.length ≤ k → T k ns d = some r → r.rcode = NOERROR →
        r.answer = [] → extract_next_nameservers F r = [] := by
      intro k ns r hk
      rw [hlen] at hk
      exact hnd k ns r hk
    obtain ⟨o, s3, h3⟩ := terminates_of_no_deleg s2.queue s2 rfl hnd2
    refine ⟨N + (s2.queue.length + 1), o, s3, ?_, outcome_trichotomy o⟩
    show engineIter T F d (N + (s2.queue.length + 1)) initial_state = StepRes.done o s3
    rw [engineIter_add, hN]
    exact h3

/-- Witness for C2 amended: with a transport that never replies (every
call fails), the run terminates with one of the three outcomes. -/
theorem claim2_termination_amended_witness :
    ∃ fuel o s, iterative_dns_lookup noneTransport emptyFallback "example.com" fuel =
      StepRes.done o s ∧
      ((∃ recs, o = Outcome.success recs) ∨ o = Outcome.nonExistent ∨ o = Outcome.failure) :=
  claim2_termination_amended noneTransport emptyFallback "example.com" 0
    (fun _ _ _ _ h => Option.noConfusion h)

/-- C3: a transport failure or a non-success, non-NXDOMAIN response code
drops exactly the head candidate — stage label and the rest of the queue
unchanged — and the loop continues; and when every remaining candidate
fails that way, the run terminates with resolution failure after exactly
one transport call per candidate and none beyond (the final trace adds
exactly one entry per candidate). -/
theorem claim3_failure_rotation
    (T : Nat → String → String → Option ParsedResponse) (F : String → List String)
    (d : String) (s : EState) :
    (∀ ns rest, s.queue = ns :: rest →
      failing_response (T s.trace.length ns d) →
      engineStep T F d s = StepRes.next ⟨rest, s.stage, s.trace ++ [(ns, d)]⟩)
    ∧ ((∀ i (hi : i < s.queue.length),
          failing_response (T (s.trace.length + i) (s.queue.get ⟨i, hi⟩) d)) →
        engineIter T F d (s.queue.length + 1) s =
          StepRes.done Outcome.failure ⟨[], s.stage, s.trace ++ s.queue.map (fun ns => (ns, d))⟩) := by
  constructor
  · intro ns rest hq hfail
    rcases hfail with hn | ⟨r, hr, h0, h3⟩
    · exact engineStep_none hq hn
    · exact engineStep_protocol_error hq hr h0 h3
  · intro hf
    exact exhaust_all_failing s.queue s rfl hf

/-- Witness for C3: with a transport that never replies, the first root
query drops only the head root candidate, and the full run fails after
exactly five transport calls — one per root candidate, none beyond. -/
theorem claim3_failure_rotation_witness :
    engineStep noneTransport emptyFallback "example.com" initial_state =
      StepRes.next ⟨["199.9.14.201", "192.33.4.12", "199.7.91.13", "192.203.230.10"],
        Stage.ROOT, [("198.41.0.4", "example.com")]⟩
    ∧ iterative_dns_lookup noneTransport emptyFallback "example.com" 6 =
      StepRes.done Outcome.failure
        ⟨[], Stage.ROOT,
         [("198.41.0.4", "example.com"), ("199.9.14.201", "example.com"),
          ("192.33.4.12", "example.com"), ("199.7.91.13", "example.com"),
          ("192.203.230.10", "example.com")]⟩ :=
  ⟨(claim3_failure_rotation noneTransport emptyFallback "example.com" initial_state).1
      "198.41.0.4" ["199.9.14.201", "192.33.4.12", "199.7.91.13", "192.203.230.10"]
      rfl (Or.inl rfl),
   (claim3_failure_rotation noneTransport emptyFallback "example.com" initial_state).2
      (fun _ _ => Or.inl rfl)⟩

/-- C4: on a delegation response (success code, empty answer section),
when extraction yields at least one address the engine replaces the
whole candidate queue by exactly that list and advances the stage with
ROOT to TLD, TLD to AUTH, AUTH to AUTH; when extraction yields the empty
list the run terminates with resolution failure without issuing any
further query (the final trace adds only the one call already made). -/
theorem claim4_delegation_step
    (T : Nat → String → String → Option ParsedResponse) (F : String → List String)
    (d : String) (s : EState) (ns : String) (rest : List String) (r : ParsedResponse)
    (hq : s.queue = ns :: rest) (ht : T s.trace.length ns d = some r)
    (h0 : r.rcode = NOERROR) (ha : r.answer = []) :
    (extract_next_nameservers F r ≠ [] →
      engineStep T F d s =
        StepRes.next ⟨extract_next_nameservers F r, next_stage s.stage, s.trace ++ [(ns, d)]⟩)
    ∧ (extract_next_nameservers F r = [] → ∀ fuel, 0 < fuel →
      engineIter T F d fuel s =
        StepRes.done Outcome.failure ⟨[], s.stage, s.trace ++ [(ns, d)]⟩)
    ∧ next_stage Stage.ROOT = Stage.TLD ∧ next_stage Stage.TLD = Stage.AUTH
    ∧ next_stage Stage.AUTH = Stage.AUTH := by
  refine ⟨fun he => engineStep_deleg hq ht h0 ha he, fun he fuel hfuel => ?_, rfl, rfl, rfl⟩
  obtain ⟨m, rfl⟩ : ∃ m, fuel = m + 1 := ⟨fuel - 1, by omega⟩
  rw [engineIter_succ, engineStep_deleg_empty hq ht h0 ha he]

/-- Witness for C4: a root delegation with glue replaces the five-root
queue by the single glue address and advances ROOT to TLD; a glue-less
delegation with an empty fallback ends the run as a failure after the
single transport call. -/
theorem claim4_delegation_step_witness :
    engineStep delegLoopTransport emptyFallback "example.com" initial_state =
      StepRes.next ⟨["1.2.3.4"], Stage.TLD, [("198.41.0.4", "example.com")]⟩
    ∧ iterative_dns_lookup noGlueDelegTransport emptyFallback "example.com" 9 =
      StepRes.done Outcome.failure
        ⟨[], Stage.ROOT, [("198.41.0.4", "example.com")]⟩ :=
  ⟨(claim4_delegation_step delegLoopTransport emptyFallback "example.com" initial_state
      "198.41.0.4" ["199.9.14.201", "192.33.4.12", "199.7.91.13", "192.203.230.10"]
      delegLoopResponse rfl rfl rfl rfl).1 (by decide),
   (claim4_delegation_step noGlueDelegTransport emptyFallback "example.com" initial_state
      "198.41.0.4" ["199.9.14.201", "192.33.4.12", "199.7.91.13", "192.203.230.10"]
      noGlueDelegResponse rfl rfl rfl rfl).2.1 (by decide) 9 (by decide)⟩

/-- C5: the stage label is monotone over the iterations of any single
run, for every transport and fallback behaviour: its rank never
decreases, so once TLD it never returns to ROOT, and once AUTH it stays
AUTH. -/
theorem claim5_stage_monotone
    (T : Nat → String → String → Option ParsedResponse) (F : String → List String)
    (d : String) (n : Nat) (s : EState) :
    s.stage.rank ≤ (stageOf (engineIter T F d n s)).rank
    ∧ (s.stage = Stage.TLD → stageOf (engineIter T F d n s) ≠ Stage.ROOT)
    ∧ (s.stage = Stage.AUTH → stageOf (engineIter T F d n s) = Stage.AUTH) := by
  have h := @engineIter_stage_rank T F d n s
  refine ⟨h, ?_, ?_⟩
  · intro hTLD heq
    rw [hTLD, heq] at h
    exact absurd h (by decide)
  · intro hAUTH
    rw [hAUTH] at h
    cases hx : stageOf (engineIter T F d n s) with
    | ROOT => rw [hx] at h; exact absurd h (by decide)
    | TLD => rw [hx] at h; exact absurd h (by decide)
    | AUTH => rfl

/-- Witness for C5: a run started at stage AUTH (as after two
delegations) still reports stage AUTH when its transport keeps
failing. -/
theorem claim5_stage_monotone_witness :
    stageOf (engineIter noneTransport emptyFallback "example.com" 3
      ⟨["9.9.9.9"], Stage.AUTH, []⟩) = Stage.AUTH :=
  (claim5_stage_monotone noneTransport emptyFallback "example.com" 3
    ⟨["9.9.9.9"], Stage.AUTH, []⟩).2.2 rfl

/-- C6: the next-hop list is the concatenation, over the NS hostnames in
authority encounter order, of the glue addresses when the hostname is in
the glue map and of the fallback result otherwise; the instrumented loop
computes the same list; a hostname with neither glue nor fallback
addresses contributes the empty list without aborting the step; and when
every NS hostname has glue the fallback path is invoked zero times. -/
theorem claim6_glue_fallback_order (F : String → List String) (resp : ParsedResponse) :
    extract_next_nameservers F resp =
      (ns_names_of resp).flatMap (spec_next_hop_addrs F resp)
    ∧ (extract_next_nameservers_count F resp).1 = extract_next_nameservers F resp
    ∧ (∀ n, additional_a_of resp (rstripDot n) = none → F n = [] →
        spec_next_hop_addrs F resp n = [])
    ∧ ((∀ n ∈ ns_names_of resp, (additional_a_of resp (rstripDot n)).isSome = true) →
        (extract_next_nameservers_count F resp).2 = 0) := by
  refine ⟨extract_eq_flatMap F resp, ?_, ?_, ?_⟩
  · rw [extract_count_eq]
  · intro n hn hf
    simp [spec_next_hop_addrs, hn, hf]
  · intro hall
    rw [extract_count_eq]
    simp only [List.length_eq_zero, List.filter_eq_nil_iff]
    intro n hn
    have hs := hall n hn
    cases hx : additional_a_of resp (rstripDot n) with
    | none => rw [hx] at hs; simp at hs
    | some v => simp [hx]

/-- Witness for C6: in a delegation whose every NS hostname has glue in
the additional section, the extraction equals the glue concatenation and
the fallback path is invoked zero times. -/
theorem claim6_glue_fallback_order_witness :
    extract_next_nameservers emptyFallback fullGlueResponse =
      (ns_names_of fullGlueResponse).flatMap (spec_next_hop_addrs emptyFallback fullGlueResponse)
    ∧ (extract_next_nameservers_count emptyFallback fullGlueResponse).2 = 0 :=
  ⟨(claim6_glue_fallback_order emptyFallback fullGlueResponse).1,
   (claim6_glue_fallback_order emptyFallback fullGlueResponse).2.2.2 (by decide)⟩

/-- C7 counterexample: when the same hostname owns two A record sets in
the additional section, the glue map keeps only the later set's
addresses — dict assignment overwrites — so the map entry does not
contain all addresses of all record sets for that hostname. -/
theorem claim7_gluemap_counterexample :
    build_additional_a dupAdditional "ns1.example" = some ["2.2.2.2"]
    ∧ build_additional_a dupAdditional "ns1.example" ≠ some ["1.1.1.1", "2.2.2.2"] := by
  exact ⟨by decide, by decide⟩

lemma build_additional_a_concat (xs : List RRset) (x : RRset) (name : String) :
    build_additional_a (xs ++ [x]) name =
      if x.rdtype = RdType.A ∧ name = rstripDot x.name then some x.rrs
      else build_additional_a xs name := by
  unfold build_additional_a
  rw [List.foldl_append]
  simp only [List.foldl_cons, List.foldl_nil]
  by_cases hA : x.rdtype = RdType.A
  · by_cases hn : name = rstripDot x.name
    · simp [hA, hn]
    · simp [hA, hn]
  · simp [hA]

/-- C7 amended: the glue map entry for a hostname holds exactly the
addresses of the last A record set in the additional section whose
normalized owner name is that hostname (later record sets overwrite
earlier ones); absent any such record set the entry is missing. -/
theorem claim7_gluemap_last_wins (adds : List RRset) (name : String) :
    build_additional_a adds name =
      ((adds.filter
          (fun r => decide (r.rdtype = RdType.A ∧ name = rstripDot r.name))).getLast?).map
        RRset.rrs := by
  induction adds using List.reverseRecOn with
  | nil => rfl
  | append_singleton xs x ih =>
    rw [build_additional_a_concat, List.filter_append]
    by_cases hx : x.rdtype = RdType.A ∧ name = rstripDot x.name
    · rw [if_pos hx]
      have hf : List.filter
          (fun r => decide (r.rdtype = RdType.A ∧ name = rstripDot r.name)) [x] = [x] := by
        simp [hx]
      rw [hf, List.getLast?_concat]
      rfl
    · rw [if_neg hx, ih]
      have hf : List.filter
          (fun r => decide (r.rdtype = RdType.A ∧ name = rstripDot r.name)) [x] = [] := by
        simp [hx]
      rw [hf, List.append_nil]

/-- C8 counterexample: the resolver performs no trailing-dot stripping
of the domain being resolved — querying for "example.com." issues a
transport call with the domain exactly as given, which differs from its
dot-stripped form. -/
theorem claim8_domain_counterexample :
    traceOf (iterative_dns_lookup noneTransport emptyFallback "example.com." 1) =
      [("198.41.0.4", "example.com.")]
    ∧ rstripDot "example.com." ≠ "example.com." := by
  exact ⟨by decide, by decide⟩

/-- C8 amended: the domain string is used verbatim — the resolver itself
performs no normalization — and it is immutable for the run: every
transport query of any run carries exactly the domain string passed
in. -/
theorem claim8_domain_immutable
    (T : Nat → String → String → Option ParsedResponse) (F : String → List String)
    (d : String) (fuel : Nat) (p : String × String)
    (hp : p ∈ traceOf (iterative_dns_lookup T F d fuel)) : p.2 = d := by
  have hinit : ∀ q ∈ initial_state.trace, (q : String × String).2 = d := by
    intro q hq
    simp [initial_state] at hq
  exact trace_domain_invariant fuel initial_state hinit p hp

/-- Witness for C8 amended: the single query of a one-step run with the
dotted domain carries exactly that dotted string. -/
theorem claim8_domain_immutable_witness :
    ("198.41.0.4", "example.com.") ∈
      traceOf (iterative_dns_lookup noneTransport emptyFallback "example.com." 1)
    ∧ (("198.41.0.4", "example.com.") : String × String).2 = "example.com." :=
  ⟨by decide,
   claim8_domain_immutable noneTransport emptyFallback "example.com." 1
     ("198.41.0.4", "example.com.") (by decide)⟩

/-- C9: neither collaborator wrapper raises a fault to its caller — the
transport wrapper returns the parsed response on success and collapses
every thrown error to the single failure value None, the fallback
wrapper returns the resolved address list or the empty list on any
error — and a terminating run's outcome is always one of the three
terminal outcomes. -/
theorem claim9_no_exceptions
    (udp : String → String → Except String ParsedResponse)
    (sysResolve : String → Except String (List String)) (server domain ns_name : String) :
    (∀ r, udp server domain = Except.ok r → send_dns_query udp server domain = some r)
    ∧ (∀ e, udp server domain = Except.error e → send_dns_query udp server domain = none)
    ∧ (∀ ips, sysResolve ns_name = Except.ok ips → resolve_ns_name sysResolve ns_name = ips)
    ∧ (∀ e, sysResolve ns_name = Except.error e → resolve_ns_name sysResolve ns_name = [])
    ∧ (∀ T F d fuel o s, iterative_dns_lookup T F d fuel = StepRes.done o s →
        (∃ recs, o = Outcome.success recs) ∨ o = Outcome.nonExistent ∨ o = Outcome.failure) := by
  refine ⟨?_, ?_, ?_, ?_, ?_⟩
  · intro r h
    simp [send_dns_query, h]
  · intro e h
    simp [send_dns_query, h]
  · intro ips h
    simp [resolve_ns_name, h]
  · intro e h
    simp [resolve_ns_name, h]
  · intro T F d fuel o s _
    exact outcome_trichotomy o

/-- Witness for C9: a throwing transport call collapses to None and a
throwing fallback call collapses to the empty list. -/
theorem claim9_no_exceptions_witness :
    send_dns_query (fun _ _ => Except.error "timed out") "198.41.0.4" "example.com" = none
    ∧ resolve_ns_name (fun _ => Except.error "NXDOMAIN") "ns.example.com" = [] :=
  ⟨(claim9_no_exceptions (fun _ _ => Except.error "timed out")
      (fun _ => Except.error "NXDOMAIN") "198.41.0.4" "example.com" "ns.example.com").2.1
      "timed out" rfl,
   (claim9_no_exceptions (fun _ _ => Except.error "timed out")
      (fun _ => Except.error "NXDOMAIN") "198.41.0.4" "example.com" "ns.example.com").2.2.2.1
      "NXDOMAIN" rfl⟩

/-- C10: a response with the success code and a non-empty answer section
terminates the run successfully, reporting every record of every record
set of the answer section in order, whatever the record types — a CNAME
in the answer is reported as the result, not followed or filtered. -/
theorem claim10_answer_success
    (T : Nat → String → String → Option ParsedResponse) (F : String → List String)
    (d : String) (fuel : Nat) (s : EState) (ns : String) (rest : List String)
    (r : ParsedResponse) (hfuel : 0 < fuel) (hq : s.queue = ns :: rest)
    (ht : T s.trace.length ns d = some r) (h0 : r.rcode = NOERROR) (ha : r.answer ≠ []) :
    engineIter T F d fuel s =
      StepRes.done (Outcome.success (answer_records r)) ⟨s.queue, s.stage, s.trace ++ [(ns, d)]⟩
    ∧ answer_records r = r.answer.flatMap RRset.rrs
    ∧ ∀ rrset ∈ r.answer, ∀ rec ∈ rrset.rrs, rec ∈ answer_records r := by
  have hrec : answer_records r = r.answer.flatMap RRset.rrs := by
    unfold answer_records
    rw [foldl_append_flatMap]
    simp
  refine ⟨?_, hrec, ?_⟩
  · obtain ⟨m, rfl⟩ : ∃ m, fuel = m + 1 := ⟨fuel - 1, by omega⟩
    rw [engineIter_succ, engineStep_success hq ht h0 ha]
  · intro rrset hrr rec hin
    rw [hrec]
    exact List.mem_flatMap.mpr ⟨rrset, hrr, hin⟩

/-- Witness for C10: a first-query CNAME answer ends the run with
success, reporting the CNAME target as the result. -/
theorem claim10_answer_success_witness :
    iterative_dns_lookup cnameSuccessTransport emptyFallback "example.com" 5 =
      StepRes.done (Outcome.success ["alias.example.net."])
        ⟨ROOT_SERVERS.map Prod.fst, Stage.ROOT, [("198.41.0.4", "example.com")]⟩
    ∧ "alias.example.net." ∈ answer_records cnameSuccessResponse := by
  have h := claim10_answer_success cnameSuccessTransport emptyFallback "example.com" 5
    initial_state "198.41.0.4"
    ["199.9.14.201", "192.33.4.12", "199.7.91.13", "192.203.230.10"]
    cnameSuccessResponse (by decide) rfl rfl rfl (by decide)
  exact ⟨h.1, h.2.2 ⟨RdType.CNAME, "example.com.", ["alias.example.net."]⟩ (by decide)
    "alias.example.net." (by decide)⟩
